import Mathlib

/-!
Verification of the timed-assessment subsystem of the Codeloop-Compyle
repository, shallowly embedded in Lean.

Conventions of the embedding:
* JS `Date` values are integer milliseconds since the epoch (`Int`).
* JS numbers used for scores, points and percentages are rationals (`ℚ`).
* Mongo document ids are natural numbers.
* A populated reference (`.populate(...)`) is embedded as the referenced
  record itself.
* Fallible route handlers return a `RouteResult` together with the updated
  database state (the list of stored submissions).
-/

namespace Compyle

/-- Question type discriminator (Question model, `type` field). -/
inductive QType
  | coding
  | mcq
  deriving DecidableEq, Repr

/-- `testCaseSchema` of the Question model: input, expectedOutput (required in
storage, hence `some` there; a student view may blank it to `undefined`,
embedded as `none`), isHidden flag and per-case points. -/
structure TestCase where
  input : String
  expectedOutput : Option String
  isHidden : Bool
  points : ℚ
  deriving DecidableEq, Repr

/-- The slice of the Question model used by the assessment subsystem. -/
structure Question where
  qid : Nat
  qtype : QType
  testCases : List TestCase
  options : List String
  correctAnswer : Int
  solutionCode : Option String
  deriving DecidableEq, Repr

/-- `assessmentQuestionSchema` (part_007 lines 3-25), with the question
reference populated. -/
structure ManifestEntry where
  question : Question
  points : ℚ
  maxAttempts : Nat
  deriving DecidableEq, Repr

/-- The slice of `assessmentSchema` (part_007) used by the claims. -/
structure Assessment where
  aid : Nat
  groups : List Nat
  startTime : Int
  duration : Int
  endTime : Int
  codingQuestions : List ManifestEntry
  mcqQuestions : List ManifestEntry
  shuffleQuestions : Bool
  shuffleOptions : Bool
  showResultsImmediately : Bool
  allowLateSubmission : Bool
  showCorrectAnswers : Bool
  preventTabSwitch : Bool
  passingScore : ℚ
  negativeMarking : Bool
  negativeMarkingValue : ℚ
  isActive : Bool
  isPublished : Bool
  deriving DecidableEq, Repr

/-- Virtual `totalPoints` (part_007 lines 160-164): coding points plus
mcq points. -/
def Assessment.totalPoints (a : Assessment) : ℚ :=
  (a.codingQuestions.map (fun q => q.points)).sum +
    (a.mcqQuestions.map (fun q => q.points)).sum

/-- The four computed assessment phases returned by `getStatus`. -/
inductive Phase
  | draft
  | upcoming
  | active
  | completed
  deriving DecidableEq, Repr

/-- `assessmentSchema.methods.getStatus` (part_007 lines 216-225); the JS
reads the clock itself, here `now` is explicit. -/
def Assessment.getStatus (a : Assessment) (now : Int) : Phase :=
  if ¬ a.isPublished then .draft
  else if now < a.startTime then .upcoming
  else if a.startTime ≤ now ∧ now ≤ a.endTime then .active
  else if a.endTime < now then .completed
  else .draft

/-- `assessmentSchema.methods.isAccessible` (part_007 lines 196-214). -/
def Assessment.isAccessibleAt (a : Assessment) (now : Int) : Bool :=
  if ¬ a.isActive ∨ ¬ a.isPublished then false
  else if now < a.startTime then false
  else if ¬ a.allowLateSubmission ∧ a.endTime < now then false
  else true

/-- Letter grades of `assessmentSubmissionSchema.grade`. -/
inductive Grade
  | APlus
  | A
  | BPlus
  | B
  | CPlus
  | C
  | D
  | F
  deriving DecidableEq, Repr

/-- The grade bucket chain of the submission pre-save hook
(part_008 lines 404-411). -/
def gradeOf (percentage : ℚ) : Grade :=
  if 95 ≤ percentage then .APlus
  else if 90 ≤ percentage then .A
  else if 85 ≤ percentage then .BPlus
  else if 80 ≤ percentage then .B
  else if 75 ≤ percentage then .CPlus
  else if 70 ≤ percentage then .C
  else if 60 ≤ percentage then .D
  else .F

/-- One formatted per-test-case result as produced by
`formatTestCaseResults` (codeExecution.js lines 94-109). -/
structure TestResult where
  testCaseIndex : Nat
  status : String
  stdout : String
  stderr : String
  compileOutput : String
  time : ℚ
  memory : ℚ
  exitCode : Int
  passed : Bool
  score : ℚ
  deriving DecidableEq, Repr

/-- `codingAttemptSchema` slice (part_008 lines 169-208). -/
structure CodingAttempt where
  code : String
  language : String
  submittedAt : Int
  executionId : String
  testResults : List TestResult
  totalPassed : Nat
  totalTestCases : Nat
  score : ℚ
  deriving DecidableEq, Repr

/-- `codingSubmissionSchema` (part_008 lines 230-249). -/
structure CodingSubmissionEntry where
  question : Nat
  attempts : List CodingAttempt
  bestScore : ℚ
  isCompleted : Bool
  deriving DecidableEq, Repr

/-- `mcqAnswerSchema` (part_008 lines 210-228). -/
structure McqAnswer where
  question : Nat
  selectedAnswer : Int
  isCorrect : Bool
  deriving DecidableEq, Repr

/-- Stored submission statuses (part_008 lines 326-330). -/
inductive SubStatus
  | inProgress
  | submitted
  | evaluated
  | expired
  deriving DecidableEq, Repr

/-- The slice of `assessmentSubmissionSchema` (part_008 lines 251-364) used
by the claims. `startedAt` is required with a default in the schema, so it
is always present; `submittedAt`, `timeTaken`, `rank` and `grade` are
nullable. -/
structure Submission where
  assessment : Nat
  student : Nat
  startedAt : Int
  submittedAt : Option Int
  timeTaken : Option Int
  mcqAnswers : List McqAnswer
  mcqScore : ℚ
  mcqMaxScore : ℚ
  codingSubmissions : List CodingSubmissionEntry
  codingScore : ℚ
  codingMaxScore : ℚ
  totalScore : ℚ
  maxScore : ℚ
  percentage : ℚ
  rank : Option Nat
  grade : Option Grade
  status : SubStatus
  deriving DecidableEq, Repr

/-- JS `Math.floor((a - b) / 1000)` on millisecond differences: floor
division by 1000, rounding towards negative infinity. -/
def msFloorDiv (diff : Int) : Int := Int.fdiv diff 1000

/-- The submission pre-save hook (part_008 lines 393-419): recomputes
totalScore, maxScore, percentage (only when maxScore is positive), grade,
and timeTaken (only when submittedAt is set; startedAt is always set). -/
def preSave (s : Submission) : Submission :=
  let totalScore := s.mcqScore + s.codingScore
  let maxScore := s.mcqMaxScore + s.codingMaxScore
  let percentage := if 0 < maxScore then totalScore / maxScore * 100 else s.percentage
  let grade := some (gradeOf percentage)
  let timeTaken :=
    match s.submittedAt with
    | some t => some (msFloorDiv (t - s.startedAt))
    | none => s.timeTaken
  { s with
    totalScore := totalScore
    maxScore := maxScore
    percentage := percentage
    grade := grade
    timeTaken := timeTaken }

/-- Result of a route handler: success payload or an HTTP error status with
its message. -/
inductive RouteResult (α : Type) where
  | ok (data : α)
  | error (statusCode : Nat) (msg : String)
  deriving DecidableEq, Repr

/-- `questionConfig?.points || 5` (assessments.js lines 1183-1185): the
manifest points when the config is found and its points are truthy,
otherwise the literal 5. -/
def configPoints : Option ManifestEntry → ℚ
  | some cfg => if cfg.points = 0 then 5 else cfg.points
  | none => 5

/-- `assessment.mcqQuestions.find(q => q.question.toString() === ...)`. -/
def findMcqConfig (manifest : List ManifestEntry) (qid : Nat) : Option ManifestEntry :=
  manifest.find? (fun q => q.question.qid == qid)

/-- The per-answer summand of the mcqScore reduce in POST /:id/submit
(assessments.js lines 1179-1187): points when correct, minus
points × negativeMarkingValue when negative marking is enabled and the
answer is incorrect. -/
def mcqContribution (manifest : List ManifestEntry) (negMarking : Bool) (negValue : ℚ)
    (ans : McqAnswer) : ℚ :=
  let cfg := findMcqConfig manifest ans.question
  let points := if ans.isCorrect then configPoints cfg else 0
  let negativePoints :=
    if negMarking = true ∧ ans.isCorrect = false then configPoints cfg * negValue else 0
  points - negativePoints

/-- The mcqScore reduce of POST /:id/submit (assessments.js lines
1179-1187), a fold over the recorded answers starting from 0. -/
def mcqScoreOf (manifest : List ManifestEntry) (negMarking : Bool) (negValue : ℚ)
    (answers : List McqAnswer) : ℚ :=
  answers.foldl (fun sum ans => sum + mcqContribution manifest negMarking negValue ans) 0

/-- The codingScore reduce of POST /:id/submit (assessments.js lines
1189-1191): sum of the per-question bestScore values. -/
def codingScoreOf (entries : List CodingSubmissionEntry) : ℚ :=
  entries.foldl (fun sum cs => sum + cs.bestScore) 0

/-- The Mongoose query `{assessment, student, status: 'in_progress'}` used
by submit-mcq, submit-coding and submit (assessments.js 959-963, 1052-1056,
1162-1166). -/
def inProgressQuery (aid student : Nat) (s : Submission) : Bool :=
  s.assessment == aid && s.student == student && s.status == SubStatus.inProgress

/-- Persisting a mutated Mongoose document: the first stored record that
matched the query is replaced by the updated record. -/
def replaceFirst (db : List Submission) (p : Submission → Bool) (s : Submission) :
    List Submission :=
  match db with
  | [] => []
  | x :: rest => if p x then s :: rest else x :: replaceFirst rest p s

/-- The scores object of the final-submit response (assessments.js
1233-1239). -/
structure FinalScores where
  mcq : ℚ
  coding : ℚ
  total : ℚ
  maxScore : ℚ
  percentage : ℚ
  deriving DecidableEq, Repr

/-- The data object of the final-submit response (assessments.js
1231-1242); submissionId is elided. -/
structure SubmitResponse where
  scores : FinalScores
  timeTaken : Int
  passed : Bool
  deriving DecidableEq, Repr

/-- POST /api/assessments/:id/submit (assessments.js lines 1139-1251): the
finalize operation. Looks up the in_progress submission of (assessment,
student); 404 when none; otherwise scores, stamps and saves it (the save
running the pre-save hook). The PerformanceMetric upsert touches a
different collection and is elided. -/
def finalizeRoute (a : Assessment) (db : List Submission) (student : Nat) (now : Int) :
    RouteResult SubmitResponse × List Submission :=
  match db.find? (inProgressQuery a.aid student) with
  | none => (.error 404 "No active assessment session found", db)
  | some sub =>
    let mcqScore := mcqScoreOf a.mcqQuestions a.negativeMarking a.negativeMarkingValue
      sub.mcqAnswers
    let codingScore := codingScoreOf sub.codingSubmissions
    let totalScore := mcqScore + codingScore
    let maxScore := a.totalPoints
    let percentage := if 0 < maxScore then totalScore / maxScore * 100 else 0
    let sub' := preSave { sub with
      submittedAt := some now
      timeTaken := some (msFloorDiv (now - sub.startedAt))
      mcqScore := mcqScore
      codingScore := codingScore
      totalScore := totalScore
      status := SubStatus.submitted }
    (.ok {
      scores := { mcq := mcqScore, coding := codingScore, total := totalScore,
                  maxScore := maxScore, percentage := percentage }
      timeTaken := msFloorDiv (now - sub.startedAt)
      passed := decide (a.passingScore ≤ percentage) },
     replaceFirst db (inProgressQuery a.aid student) sub')

/-- A fresh AssessmentSubmission as created in POST /:id/start
(assessments.js 856-860): schema defaults with startedAt = now. -/
def freshSubmission (aid student : Nat) (now : Int) : Submission where
  assessment := aid
  student := student
  startedAt := now
  submittedAt := none
  timeTaken := none
  mcqAnswers := []
  mcqScore := 0
  mcqMaxScore := 0
  codingSubmissions := []
  codingScore := 0
  codingMaxScore := 0
  totalScore := 0
  maxScore := 0
  percentage := 0
  rank := none
  grade := none
  status := .inProgress

/-- `existingSubmission && existingSubmission.status === 'submitted'`
(assessments.js 844). -/
def alreadySubmitted : Option Submission → Bool
  | some s => s.status == SubStatus.submitted
  | none => false

/-- The data object of the session-start response (assessments.js
902-924): student-visible assessment metadata, the student-local end time,
remaining seconds and the question manifests; submissionId and the string
metadata (title, description, instructions) are elided. -/
structure StartPayload where
  duration : Int
  negativeMarking : Bool
  negativeMarkingValue : ℚ
  preventTabSwitch : Bool
  endTime : Int
  timeRemaining : Int
  codingQuestions : List ManifestEntry
  mcqQuestions : List ManifestEntry
  totalQuestions : Nat
  totalPoints : ℚ
  deriving DecidableEq, Repr

/-- POST /api/assessments/:id/start (assessments.js lines 786-932) for
assessments whose shuffle flags are both off (the shuffle branches permute
with Math.random and are outside this deterministic embedding). The caller
is a student (role guard elided); `userGroups` are the student's group ids
and `existing` is the stored submission for (assessment, student), if any.
Returns the response and the submission in store after the call. -/
def startSession (a : Assessment) (userGroups : List Nat) (existing : Option Submission)
    (student : Nat) (now : Int) : RouteResult StartPayload × Option Submission :=
  if a.isAccessibleAt now = false then
    (.error 403 "Assessment is not accessible at this time", existing)
  else if (a.groups.any fun g => userGroups.contains g) = false then
    (.error 403 "You are not assigned to this assessment", existing)
  else if alreadySubmitted existing then
    (.error 400 "You have already submitted this assessment", existing)
  else
    let submission :=
      match existing with
      | some s => s
      | none => preSave (freshSubmission a.aid student now)
    let studentEndTime := min (submission.startedAt + a.duration * 60000) a.endTime
    (.ok {
      duration := a.duration
      negativeMarking := a.negativeMarking
      negativeMarkingValue := a.negativeMarkingValue
      preventTabSwitch := a.preventTabSwitch
      endTime := studentEndTime
      timeRemaining := max 0 (msFloorDiv (studentEndTime - now))
      codingQuestions := a.codingQuestions
      mcqQuestions := a.mcqQuestions
      totalQuestions := a.codingQuestions.length + a.mcqQuestions.length
      totalPoints := a.totalPoints }, some submission)

/-- The student redaction of GET /api/questions/:id (questions.js lines
395-405): for a coding question every hidden test case's expectedOutput is
blanked, and solutionCode is blanked for every question. -/
def studentQuestionView (q : Question) : Question :=
  let q1 :=
    if q.qtype = QType.coding then
      { q with testCases := q.testCases.map fun tc =>
          { tc with expectedOutput := if tc.isHidden then none else tc.expectedOutput } }
    else q
  { q1 with solutionCode := none }

/-- The data object of the submit-coding response (assessments.js
1120-1128); estimatedTime is elided. -/
structure CodingSubmitResponse where
  executionId : String
  status : String
  deriving DecidableEq, Repr

/-- The attempt queued by POST /:id/submit-coding (assessments.js
1095-1104): no results yet, score 0. -/
def mkQueuedAttempt (code lang : String) (now : Int) (execId : String) (q : Question) :
    CodingAttempt where
  code := code
  language := lang
  submittedAt := now
  executionId := execId
  testResults := []
  totalPassed := 0
  totalTestCases := q.testCases.length
  score := 0

/-- In-place mutation of the coding-submission entry found for a question:
replace the first entry with that question id. -/
def replaceCodingEntry (entries : List CodingSubmissionEntry) (qid : Nat)
    (new : CodingSubmissionEntry) : List CodingSubmissionEntry :=
  match entries with
  | [] => []
  | cs :: rest =>
    if cs.question == qid then new :: rest else cs :: replaceCodingEntry rest qid new

/-- POST /api/assessments/:id/submit-coding (assessments.js lines
1023-1136). Execution is only queued here: the appended attempt carries no
results. `questionStore` is the Question collection; `execId` stands for
the Date.now/Math.random execution id. When an entry for the question
already exists but the assessment manifest has no config for it, the JS
dereferences undefined and the catch answers 500. -/
def submitCodingRoute (a : Assessment) (db : List Submission) (questionStore : List Question)
    (student qid : Nat) (code lang : String) (now : Int) (execId : String) :
    RouteResult CodingSubmitResponse × List Submission :=
  match db.find? (inProgressQuery a.aid student) with
  | none => (.error 404 "No active assessment session found", db)
  | some sub =>
    match questionStore.find? (fun q => q.qid == qid) with
    | none => (.error 400 "Invalid coding question", db)
    | some q =>
      if q.qtype ≠ QType.coding then (.error 400 "Invalid coding question", db)
      else
        let cfgOpt := a.codingQuestions.find? (fun mq => mq.question.qid == qid)
        match sub.codingSubmissions.find? (fun cs => cs.question == qid) with
        | some cs =>
          match cfgOpt with
          | none => (.error 500 "Failed to submit coding solution", db)
          | some cfg =>
            if cfg.maxAttempts ≤ cs.attempts.length then
              (.error 400 "Maximum attempts reached for this question", db)
            else
              let cs1 : CodingSubmissionEntry := { cs with
                attempts := cs.attempts ++ [mkQueuedAttempt code lang now execId q],
                isCompleted := false }
              let entries1 := replaceCodingEntry sub.codingSubmissions qid cs1
              let sub' := preSave { sub with codingSubmissions := entries1 }
              (.ok { executionId := execId, status := "queued" },
               replaceFirst db (inProgressQuery a.aid student) sub')
        | none =>
          let sub' := preSave { sub with codingSubmissions := sub.codingSubmissions ++
            [{ question := qid, attempts := [mkQueuedAttempt code lang now execId q],
               bestScore := 0, isCompleted := false }] }
          (.ok { executionId := execId, status := "queued" },
           replaceFirst db (inProgressQuery a.aid student) sub')

/-- JS Math.round on a non-negative rational: floor(x + 1/2). -/
def jsRound (x : ℚ) : Int := Int.floor (x + 1/2)

/-- The summary object of the assessment-submit response (codeExecution.js
801-809). -/
structure AssessmentSubmitSummary where
  totalTests : Nat
  passedTests : Nat
  failedTests : Nat
  score : ℚ
  attemptNumber : Nat
  maxAttempts : Nat
  isCompleted : Bool
  deriving DecidableEq, Repr

/-- The Mongoose query `{assessment, student, status: {$in: ['in_progress',
'submitted']}}` of POST /api/code/assessment-submit (codeExecution.js
742-746). -/
def activeOrSubmittedQuery (aid student : Nat) (s : Submission) : Bool :=
  s.assessment == aid && s.student == student &&
    (s.status == SubStatus.inProgress || s.status == SubStatus.submitted)

/-- POST /api/code/assessment-submit (codeExecution.js lines 619-832). The
judge interaction is abstracted: `results` are the formatted per-test-case
results of this run (`formatTestCaseResults`), one per test case. The
route appends the attempt without any attempt-limit check; maxAttempts is
the hardcoded 3 of line 790, used only for the isCompleted flag and the
response. -/
def assessmentSubmitRoute (db : List Submission) (questionStore : List Question)
    (student assessmentId qid : Nat) (code lang : String) (results : List TestResult)
    (now : Int) (execId : String) :
    RouteResult AssessmentSubmitSummary × List Submission :=
  match questionStore.find? (fun q => q.qid == qid) with
  | none => (.error 404 "Coding question not found", db)
  | some q =>
    if q.qtype ≠ QType.coding then (.error 404 "Coding question not found", db)
    else if q.testCases.length = 0 then
      (.error 400 "No test cases found for this question", db)
    else
      let passedTests := (results.filter fun r => r.passed).length
      let totalTests := results.length
      let score : ℚ := jsRound ((passedTests : ℚ) / (totalTests : ℚ) * 100)
      match db.find? (activeOrSubmittedQuery assessmentId student) with
      | none => (.error 404 "No active assessment session found", db)
      | some sub =>
        let newAttempt : CodingAttempt :=
          { code := code, language := lang, submittedAt := now, executionId := execId,
            testResults := results, totalPassed := passedTests,
            totalTestCases := totalTests, score := score }
        let prior := sub.codingSubmissions.find? (fun cs => cs.question == qid)
        let priorEntry : CodingSubmissionEntry :=
          match prior with
          | some cs => cs
          | none => { question := qid, attempts := [], bestScore := 0, isCompleted := false }
        let attempts1 := priorEntry.attempts ++ [newAttempt]
        let entry1 : CodingSubmissionEntry :=
          { priorEntry with
            attempts := attempts1
            bestScore := if priorEntry.bestScore < score then score else priorEntry.bestScore
            isCompleted := passedTests == totalTests || 3 ≤ attempts1.length }
        let sub' := preSave { sub with codingSubmissions :=
          match prior with
          | some _ => replaceCodingEntry sub.codingSubmissions qid entry1
          | none => sub.codingSubmissions ++ [entry1] }
        (.ok { totalTests := totalTests, passedTests := passedTests,
               failedTests := totalTests - passedTests, score := score,
               attemptNumber := attempts1.length, maxAttempts := 3,
               isCompleted := entry1.isCompleted },
         replaceFirst db (activeOrSubmittedQuery assessmentId student) sub')

/-- Number of recorded attempts of a submission on one coding question. -/
def attemptsFor (s : Submission) (qid : Nat) : Nat :=
  match s.codingSubmissions.find? (fun cs => cs.question == qid) with
  | some cs => cs.attempts.length
  | none => 0

/-- MongoDB ascending comparison on a nullable sort key: null and missing
order before every number. -/
def keyLtB : Option Int → Option Int → Bool
  | none, some _ => true
  | some x, some y => decide (x < y)
  | _, _ => false

/-- Propositional form of `keyLtB`. -/
def keyLt (x y : Option Int) : Prop := keyLtB x y = true

/-- The sort key of updateRanks (part_008 line 588):
`{ totalScore: -1, timeTaken: 1, submittedAt: 1 }` read as a lexicographic
order. -/
def rankLeB (a b : Submission) : Bool :=
  if b.totalScore < a.totalScore then true
  else if a.totalScore = b.totalScore then
    if keyLtB a.timeTaken b.timeTaken then true
    else if a.timeTaken = b.timeTaken then
      keyLtB a.submittedAt b.submittedAt || a.submittedAt == b.submittedAt
    else false
  else false

/-- Propositional form of `rankLeB`, the relation the rank sort respects. -/
def RankLe (a b : Submission) : Prop := rankLeB a b = true

instance : DecidableRel RankLe := fun a b => by
  unfold RankLe
  infer_instance

/-- The status filter of updateRanks (part_008 line 587). -/
def rankEligible (s : Submission) : Bool :=
  s.status == SubStatus.submitted || s.status == SubStatus.evaluated

/-- Assign rank = position (starting at i) to each record of an ordered
list and save it, the save rerunning the pre-save hook. -/
def rankFrom (i : Nat) (l : List Submission) : List Submission :=
  match l with
  | [] => []
  | s :: rest => preSave { s with rank := some i } :: rankFrom (i + 1) rest

/-- `assessmentSubmissionSchema.statics.updateRanks` (part_008 lines
586-596): filter the submitted/evaluated submissions of the assessment,
sort by (totalScore desc, timeTaken asc, submittedAt asc), assign rank =
index + 1 and save each document. Returns the saved documents in rank
order. -/
def updateRanks (subs : List Submission) : List Submission :=
  rankFrom 1 (List.insertionSort RankLe (subs.filter rankEligible))

/-- The status object of a judge poll response; only its id drives the
polling loop. -/
structure JudgeStatus where
  id : String
  description : String
  deriving DecidableEq, Repr

/-- A judge poll response body, reduced to the status consulted by the
loop (stdout, time and memory play no role in the loop itself). -/
structure JudgeResult where
  status : JudgeStatus
  deriving DecidableEq, Repr

/-- One poll either yields a response body or fails on the network (the
axios catch branch). -/
inductive PollOutcome where
  | ok (r : JudgeResult)
  | networkError
  deriving DecidableEq, Repr

/-- The while-loop guard of codeExecution.js line 475 (and 193, 694):
continue while there is no result yet or its status id is processing or
queued. -/
def pendingResult : Option JudgeResult → Bool
  | none => true
  | some r => r.status.id == "processing" || r.status.id == "queued"

/-- The result injected when the final poll fails on the network
(codeExecution.js 489-493). -/
def pollTimeoutResult : JudgeResult :=
  { status := { id := "error", description := "Timeout while polling for results" } }

/-- The judge polling loop (codeExecution.js lines 471-495; identical at
189-214 and 690-714): up to maxAttempts polls at one-second intervals,
`polls k` being the outcome of the k-th poll (1-based); a network error
sets the timeout result only on the final attempt, otherwise leaves the
previous result in place. Returns the final attempt counter (the number of
polls issued when started at 0) and the final result. -/
def pollLoop (polls : Nat → PollOutcome) (maxAttempts : Nat) (attempts : Nat)
    (result : Option JudgeResult) : Nat × Option JudgeResult :=
  if h : attempts < maxAttempts ∧ pendingResult result = true then
    let a1 := attempts + 1
    let result1 :=
      match polls a1 with
      | .ok r => some r
      | .networkError => if a1 = maxAttempts then some pollTimeoutResult else result
    pollLoop polls maxAttempts a1 result1
  else (attempts, result)
termination_by maxAttempts - attempts
decreasing_by omega

/-- The startedAt the session-start handler works with: the stored one
when a submission exists, otherwise the fresh one set to now. -/
def sessionStartedAt (existing : Option Submission) (now : Int) : Int :=
  match existing with
  | some s => s.startedAt
  | none => now

/-- A concrete MCQ question for witnesses. -/
def mcqSampleQuestion : Question where
  qid := 5
  qtype := .mcq
  testCases := []
  options := ["a", "b", "c", "d"]
  correctAnswer := 2
  solutionCode := none

/-- A concrete manifest entry worth 10 points for witnesses. -/
def mcqSampleEntry : ManifestEntry where
  question := mcqSampleQuestion
  points := 10
  maxAttempts := 1

/-- A concrete incorrect answer to question 5 for witnesses. -/
def mcqWrongAnswer : McqAnswer where
  question := 5
  selectedAnswer := 1
  isCorrect := false

/-- The hidden test case of the concrete secret question. -/
def secretHiddenTc : TestCase where
  input := "3"
  expectedOutput := some "SECRET"
  isHidden := true
  points := 10

/-- A concrete coding question with one public and one hidden test case. -/
def secretQuestion : Question where
  qid := 9
  qtype := .coding
  testCases := [
    { input := "1", expectedOutput := some "2", isHidden := false, points := 10 },
    secretHiddenTc]
  options := []
  correctAnswer := 0
  solutionCode := some "print(42)"

/-- The hidden test case as the student question view returns it. -/
def redactedSecretTc : TestCase where
  input := "3"
  expectedOutput := none
  isHidden := true
  points := 10

/-- Per-submission attempt counts on one question across a stored list. -/
def attemptsList (db : List Submission) (qid : Nat) : List Nat :=
  db.map (fun s => attemptsFor s qid)

/-- Truth of a route result. -/
def routeOk {α : Type} : RouteResult α → Bool
  | .ok _ => true
  | .error _ _ => false

/-- One failed formatted test-case result, for witnesses. -/
def failedResult : TestResult where
  testCaseIndex := 1
  status := "wrong_answer"
  stdout := "0"
  stderr := ""
  compileOutput := ""
  time := 0
  memory := 0
  exitCode := 0
  passed := false
  score := 0

/-- One stored coding attempt, for witnesses. -/
def c2Attempt : CodingAttempt where
  code := "print(0)"
  language := "python"
  submittedAt := 10
  executionId := "e1"
  testResults := [failedResult]
  totalPassed := 0
  totalTestCases := 1
  score := 0

/-- An in_progress submission of student 7 on assessment 1 already holding
three attempts on question 9. -/
def c2Submission : Submission where
  assessment := 1
  student := 7
  startedAt := 0
  submittedAt := none
  timeTaken := none
  mcqAnswers := []
  mcqScore := 0
  mcqMaxScore := 0
  codingSubmissions := [{ question := 9, attempts := [c2Attempt, c2Attempt, c2Attempt],
                          bestScore := 0, isCompleted := true }]
  codingScore := 0
  codingMaxScore := 0
  totalScore := 0
  maxScore := 0
  percentage := 0
  rank := none
  grade := none
  status := .inProgress

/-- A submitted submission of 200 seconds, before the save hook. -/
def rawRankA : Submission where
  assessment := 1
  student := 11
  startedAt := 0
  submittedAt := some 200000
  timeTaken := none
  mcqAnswers := []
  mcqScore := 0
  mcqMaxScore := 0
  codingSubmissions := []
  codingScore := 0
  codingMaxScore := 0
  totalScore := 0
  maxScore := 0
  percentage := 0
  rank := none
  grade := none
  status := .submitted

/-- A submitted submission of 300 seconds, before the save hook. -/
def rawRankB : Submission where
  assessment := 1
  student := 12
  startedAt := 0
  submittedAt := some 300000
  timeTaken := none
  mcqAnswers := []
  mcqScore := 0
  mcqMaxScore := 0
  codingSubmissions := []
  codingScore := 0
  codingMaxScore := 0
  totalScore := 0
  maxScore := 0
  percentage := 0
  rank := none
  grade := none
  status := .submitted

/-- The 200-second submission as the store holds it (hook applied). -/
def rankSampleA : Submission := preSave rawRankA

/-- The 300-second submission as the store holds it (hook applied). -/
def rankSampleB : Submission := preSave rawRankB

/-- A judge response still sitting in the queue. -/
def queuedResult : JudgeResult where
  status := { id := "queued", description := "In Queue" }

/-- A judge that answers queued forever. -/
def constQueuedPolls : Nat → PollOutcome := fun _ => PollOutcome.ok queuedResult

/-- A judge whose polls all fail on the network. -/
def constErrorPolls : Nat → PollOutcome := fun _ => PollOutcome.networkError

/-- A concrete submission used to instantiate hypotheses of proved claims. -/
def sampleSubmission : Submission where
  assessment := 1
  student := 7
  startedAt := 1000
  submittedAt := some 13500
  timeTaken := none
  mcqAnswers := []
  mcqScore := 5
  mcqMaxScore := 10
  codingSubmissions := []
  codingScore := 5
  codingMaxScore := 10
  totalScore := 0
  maxScore := 0
  percentage := 0
  rank := none
  grade := none
  status := .submitted

/-- A concrete assessment used to instantiate hypotheses of proved claims. -/
def sampleAssessment : Assessment where
  aid := 1
  groups := [3]
  startTime := 0
  duration := 30
  endTime := 7200000
  codingQuestions := []
  mcqQuestions := []
  shuffleQuestions := false
  shuffleOptions := false
  showResultsImmediately := true
  allowLateSubmission := false
  showCorrectAnswers := true
  preventTabSwitch := false
  passingScore := 40
  negativeMarking := false
  negativeMarkingValue := 1
  isActive := true
  isPublished := true

/-- An open, published assessment containing the secret question. -/
def leakAssessment : Assessment :=
  { sampleAssessment with
    codingQuestions := [{ question := secretQuestion, points := 20, maxAttempts := 3 }] }

/-- The session payload of starting sampleAssessment at T+10min. -/
def sampleStartPayload : StartPayload where
  duration := 30
  negativeMarking := false
  negativeMarkingValue := 1
  preventTabSwitch := false
  endTime := 2400000
  timeRemaining := 1800
  codingQuestions := []
  mcqQuestions := []
  totalQuestions := 0
  totalPoints := sampleAssessment.totalPoints

/-- The session payload of starting leakAssessment at T+10min. -/
def leakStartPayload : StartPayload where
  duration := 30
  negativeMarking := false
  negativeMarkingValue := 1
  preventTabSwitch := false
  endTime := 2400000
  timeRemaining := 1800
  codingQuestions := [{ question := secretQuestion, points := 20, maxAttempts := 3 }]
  mcqQuestions := []
  totalQuestions := 1
  totalPoints := leakAssessment.totalPoints

/-- C7: the computed assessment phase is draft when the assessment is not
published, upcoming when now is before startTime, active when now lies in
[startTime, endTime], completed when now is past endTime (the guards being
tried in this order), and it depends only on the published flag, startTime,
endTime and now. -/
theorem C7_assessment_phase (a : Assessment) (now : Int) :
    (a.isPublished = false → a.getStatus now = Phase.draft) ∧
    (a.isPublished = true → now < a.startTime → a.getStatus now = Phase.upcoming) ∧
    (a.isPublished = true → a.startTime ≤ now → now ≤ a.endTime →
      a.getStatus now = Phase.active) ∧
    (a.isPublished = true → a.startTime ≤ now → a.endTime < now →
      a.getStatus now = Phase.completed) ∧
    (∀ b : Assessment, a.isPublished = b.isPublished → a.startTime = b.startTime →
      a.endTime = b.endTime → a.getStatus now = b.getStatus now) := by
  refine ⟨?_, ?_, ?_, ?_, ?_⟩
  · intro h
    simp [Assessment.getStatus, h]
  · intro hp hn
    simp [Assessment.getStatus, hp, hn]
  · intro hp h1 h2
    simp [Assessment.getStatus, hp, not_lt.mpr h1, h1, h2]
  · intro hp h1 h2
    simp [Assessment.getStatus, hp, not_lt.mpr h1, h1, not_le.mpr h2, h2]
  · intro b h1 h2 h3
    simp [Assessment.getStatus, h1, h2, h3]

/-- Witness for C7 at a concrete published assessment and clock value. -/
theorem C7_assessment_phase_witness :
    sampleAssessment.getStatus 50 = Phase.active :=
  (C7_assessment_phase sampleAssessment 50).2.2.1 rfl (by norm_num [sampleAssessment])
    (by norm_num [sampleAssessment])

/-- C8: the letter grade follows the fixed bucket table, with the
half-open boundaries of the claim, including the four quoted boundary
inputs. -/
theorem C8_grade_buckets :
    (∀ p : ℚ, 95 ≤ p → gradeOf p = Grade.APlus) ∧
    (∀ p : ℚ, 90 ≤ p → p < 95 → gradeOf p = Grade.A) ∧
    (∀ p : ℚ, 85 ≤ p → p < 90 → gradeOf p = Grade.BPlus) ∧
    (∀ p : ℚ, 80 ≤ p → p < 85 → gradeOf p = Grade.B) ∧
    (∀ p : ℚ, 75 ≤ p → p < 80 → gradeOf p = Grade.CPlus) ∧
    (∀ p : ℚ, 70 ≤ p → p < 75 → gradeOf p = Grade.C) ∧
    (∀ p : ℚ, 60 ≤ p → p < 70 → gradeOf p = Grade.D) ∧
    (∀ p : ℚ, p < 60 → gradeOf p = Grade.F) ∧
    gradeOf (94999/1000) = Grade.A ∧ gradeOf 95 = Grade.APlus ∧
    gradeOf (59999/1000) = Grade.F ∧ gradeOf 60 = Grade.D := by
  refine ⟨?_, ?_, ?_, ?_, ?_, ?_, ?_, ?_, ?_, ?_, ?_, ?_⟩
  · intro p h1
    simp [gradeOf, h1]
  · intro p h1 h2
    rw [gradeOf, if_neg (not_le.mpr h2), if_pos h1]
  · intro p h1 h2
    rw [gradeOf, if_neg (by linarith), if_neg (not_le.mpr h2), if_pos h1]
  · intro p h1 h2
    rw [gradeOf, if_neg (by linarith), if_neg (by linarith), if_neg (not_le.mpr h2),
      if_pos h1]
  · intro p h1 h2
    rw [gradeOf, if_neg (by linarith), if_neg (by linarith), if_neg (by linarith),
      if_neg (not_le.mpr h2), if_pos h1]
  · intro p h1 h2
    rw [gradeOf, if_neg (by linarith), if_neg (by linarith), if_neg (by linarith),
      if_neg (by linarith), if_neg (not_le.mpr h2), if_pos h1]
  · intro p h1 h2
    rw [gradeOf, if_neg (by linarith), if_neg (by linarith), if_neg (by linarith),
      if_neg (by linarith), if_neg (by linarith), if_neg (not_le.mpr h2), if_pos h1]
  · intro p h1
    rw [gradeOf, if_neg (by linarith), if_neg (by linarith), if_neg (by linarith),
      if_neg (by linarith), if_neg (by linarith), if_neg (by linarith),
      if_neg (not_le.mpr h1)]
  · norm_num [gradeOf]
  · norm_num [gradeOf]
  · norm_num [gradeOf]
  · norm_num [gradeOf]

/-- Witness for C8 at a concrete percentage. -/
theorem C8_grade_buckets_witness : gradeOf 72 = Grade.C :=
  C8_grade_buckets.2.2.2.2.2.1 72 (by norm_num) (by norm_num)

/-- C10: after the pre-save hook runs, totalScore is the sum of the stored
section scores, maxScore the sum of the stored section maxima, percentage
matches totalScore / maxScore × 100 whenever maxScore is positive, the
stored grade is the bucket of the stored percentage, and timeTaken is the
floored second difference whenever submittedAt is set. -/
theorem C10_presave_derived_fields (s : Submission) :
    (preSave s).totalScore = (preSave s).mcqScore + (preSave s).codingScore ∧
    (preSave s).maxScore = (preSave s).mcqMaxScore + (preSave s).codingMaxScore ∧
    (0 < (preSave s).maxScore →
      (preSave s).percentage = (preSave s).totalScore / (preSave s).maxScore * 100) ∧
    (preSave s).grade = some (gradeOf (preSave s).percentage) ∧
    (∀ t, s.submittedAt = some t →
      (preSave s).timeTaken = some (Int.fdiv (t - (preSave s).startedAt) 1000)) := by
  refine ⟨rfl, rfl, ?_, rfl, ?_⟩
  · intro h
    simp only [preSave] at h ⊢
    rw [if_pos h]
  · intro t ht
    simp [preSave, msFloorDiv, ht]

/-- Witness for C10 at a concrete submission record. -/
theorem C10_presave_derived_fields_witness :
    0 < (preSave sampleSubmission).maxScore ∧
    (preSave sampleSubmission).percentage =
      (preSave sampleSubmission).totalScore / (preSave sampleSubmission).maxScore * 100 ∧
    (preSave sampleSubmission).timeTaken = some 12 := by
  refine ⟨by norm_num [preSave, sampleSubmission], ?_, ?_⟩
  · exact (C10_presave_derived_fields sampleSubmission).2.2.1
      (by norm_num [preSave, sampleSubmission])
  · have h := (C10_presave_derived_fields sampleSubmission).2.2.2.2 13500 rfl
    rw [h]
    norm_num [preSave, sampleSubmission]
    decide

/-- A fold adding f of each element equals the initial value plus the sum
of the mapped list. -/
theorem foldl_add_sum {α : Type} (f : α → ℚ) (l : List α) :
    ∀ init : ℚ, l.foldl (fun s a => s + f a) init = init + (l.map f).sum := by
  induction l with
  | nil => intro init; simp
  | cons a t ih =>
    intro init
    simp only [List.foldl_cons, List.map_cons, List.sum_cons, ih]
    ring

/-- Appending a manifest entry for a question no answer refers to does not
change any config lookup done for an answer. -/
theorem findMcqConfig_append_notin (manifest : List ManifestEntry) (entry : ManifestEntry)
    (qid : Nat) (hq : qid ≠ entry.question.qid) :
    findMcqConfig (manifest ++ [entry]) qid = findMcqConfig manifest qid := by
  unfold findMcqConfig
  induction manifest with
  | nil =>
    simp only [List.nil_append, List.find?_nil, List.find?_cons]
    have : (entry.question.qid == qid) = false := by
      exact beq_eq_false_iff_ne.mpr (fun h => hq h.symm)
    simp [this]
  | cons m t ih =>
    by_cases h : (m.question.qid == qid) = true
    · simp [List.find?_cons, h]
    · simp only [List.cons_append, List.find?_cons, Bool.not_eq_true] at *
      simp [h, ih]

/-- C3: with negative marking enabled and an admissible negativeMarkingValue
v in [0,1], an incorrectly answered question worth p points contributes
exactly −(p × v) to the MCQ subtotal, hence never less than −p; the
subtotal is the sum of the per-answer contributions, and a question that
was never answered contributes nothing (appending its manifest entry
leaves the subtotal unchanged). -/
theorem C3_negative_marking_floor :
    (∀ (manifest : List ManifestEntry) (v : ℚ) (ans : McqAnswer) (cfg : ManifestEntry),
      0 ≤ v → v ≤ 1 → 0 < cfg.points →
      findMcqConfig manifest ans.question = some cfg → ans.isCorrect = false →
      mcqContribution manifest true v ans = -(cfg.points * v) ∧
      -cfg.points ≤ mcqContribution manifest true v ans) ∧
    (∀ (manifest : List ManifestEntry) (negM : Bool) (v : ℚ) (answers : List McqAnswer),
      mcqScoreOf manifest negM v answers =
        (answers.map (mcqContribution manifest negM v)).sum) ∧
    (∀ (manifest : List ManifestEntry) (negM : Bool) (v : ℚ) (answers : List McqAnswer)
      (entry : ManifestEntry),
      (∀ ans ∈ answers, ans.question ≠ entry.question.qid) →
      mcqScoreOf (manifest ++ [entry]) negM v answers = mcqScoreOf manifest negM v answers) := by
  refine ⟨?_, ?_, ?_⟩
  · intro manifest v ans cfg h0 h1 hp hfind hwrong
    have hne : cfg.points ≠ 0 := ne_of_gt hp
    have heq : mcqContribution manifest true v ans = -(cfg.points * v) := by
      unfold mcqContribution
      rw [hfind]
      simp [configPoints, hwrong, hne]
    refine ⟨heq, ?_⟩
    rw [heq]
    have hle : cfg.points * v ≤ cfg.points := mul_le_of_le_one_right (le_of_lt hp) h1
    linarith
  · intro manifest negM v answers
    unfold mcqScoreOf
    rw [foldl_add_sum]
    ring
  · intro manifest negM v answers entry hnomem
    unfold mcqScoreOf
    rw [foldl_add_sum, foldl_add_sum]
    have hmap : answers.map (mcqContribution (manifest ++ [entry]) negM v) =
        answers.map (mcqContribution manifest negM v) := by
      apply List.map_congr_left
      intro ans hans
      unfold mcqContribution
      rw [findMcqConfig_append_notin manifest entry ans.question (hnomem ans hans)]
    rw [hmap]

/-- Witness for C3 at question 5 worth 10 points, v = 1/4, answered
incorrectly: contribution −5/2, no less than −10. -/
theorem C3_negative_marking_floor_witness :
    mcqContribution [mcqSampleEntry] true (1/4) mcqWrongAnswer = -(10 * (1/4)) ∧
    -(10 : ℚ) ≤ mcqContribution [mcqSampleEntry] true (1/4) mcqWrongAnswer := by
  have h := C3_negative_marking_floor.1 [mcqSampleEntry] (1/4) mcqWrongAnswer mcqSampleEntry
    (by norm_num) (by norm_num) (by norm_num [mcqSampleEntry]) rfl rfl
  have hp : mcqSampleEntry.points = 10 := rfl
  rw [hp] at h
  exact h

/-- C4: the session-start payload's endTime is
min(startedAt + duration minutes, assessment.endTime); on the concrete
30-minute assessment whose window stays open 120 minutes, a student
starting 10 minutes in gets deadline T+40min, neither T+30min nor the
global endTime. -/
theorem C4_student_deadline :
    (∀ (a : Assessment) (userGroups : List Nat) (existing : Option Submission)
      (student : Nat) (now : Int) (payload : StartPayload) (stored : Option Submission),
      startSession a userGroups existing student now = (.ok payload, stored) →
      payload.endTime = min (sessionStartedAt existing now + a.duration * 60000) a.endTime) ∧
    (∃ payload stored,
      startSession sampleAssessment [3] none 7 600000 = (.ok payload, stored) ∧
      sampleAssessment.startTime = 0 ∧ sampleAssessment.duration = 30 ∧
      payload.endTime = 2400000 ∧
      payload.endTime ≠ 1800000 ∧ payload.endTime ≠ sampleAssessment.endTime) := by
  constructor
  · intro a userGroups existing student now payload stored h
    cases existing with
    | none =>
      simp only [startSession, alreadySubmitted, sessionStartedAt] at h ⊢
      split_ifs at h with h1 h2 h3
      · simp at h
      · simp at h
      · exact h3.elim
      · simp only [Prod.mk.injEq, RouteResult.ok.injEq] at h
        rw [← h.1]
        rfl
    | some s =>
      simp only [startSession, alreadySubmitted, sessionStartedAt] at h ⊢
      split_ifs at h with h1 h2 h3
      · simp at h
      · simp at h
      · simp at h
      · simp only [Prod.mk.injEq, RouteResult.ok.injEq] at h
        rw [← h.1]
  · refine ⟨_, _, rfl, rfl, rfl, ?_, ?_, ?_⟩ <;> decide

/-- Witness for C4 applying the general clause to the concrete session. -/
theorem C4_student_deadline_witness :
    startSession sampleAssessment [3] none 7 600000 =
      (.ok sampleStartPayload, some (preSave (freshSubmission 1 7 600000))) ∧
    sampleStartPayload.endTime =
      min (sessionStartedAt none 600000 + sampleAssessment.duration * 60000)
        sampleAssessment.endTime :=
  ⟨rfl, C4_student_deadline.1 sampleAssessment [3] none 7 600000
    sampleStartPayload (some (preSave (freshSubmission 1 7 600000))) rfl⟩

/-- C6 counterexample: the session-start payload hands the student the
stored coding questions verbatim, including the hidden test case whose
expectedOutput is "SECRET". -/
theorem C6_hidden_output_counterexample :
    startSession leakAssessment [3] none 7 600000 =
      (.ok leakStartPayload, some (preSave (freshSubmission 1 7 600000))) ∧
    leakStartPayload.codingQuestions =
      [{ question := secretQuestion, points := 20, maxAttempts := 3 }] ∧
    secretHiddenTc ∈ secretQuestion.testCases ∧
    secretHiddenTc.isHidden = true ∧
    secretHiddenTc.expectedOutput = some "SECRET" := by
  refine ⟨rfl, rfl, ?_, rfl, rfl⟩
  decide

/-- C6 amended: only the student question-detail view strips hidden
expected outputs (and solutionCode); the session-start payload returns the
stored coding and mcq manifests unredacted, so hidden test-case expected
outputs reach the student there. -/
theorem C6_hidden_output_views :
    (∀ q : Question, q.qtype = QType.coding →
      (∀ tc ∈ (studentQuestionView q).testCases, tc.isHidden = true →
        tc.expectedOutput = none) ∧
      (studentQuestionView q).solutionCode = none) ∧
    (∀ (a : Assessment) (userGroups : List Nat) (existing : Option Submission)
      (student : Nat) (now : Int) (payload : StartPayload) (stored : Option Submission),
      startSession a userGroups existing student now = (.ok payload, stored) →
      payload.codingQuestions = a.codingQuestions ∧
      payload.mcqQuestions = a.mcqQuestions) := by
  constructor
  · intro q hq
    constructor
    · intro tc htc hhid
      simp only [studentQuestionView, hq, if_true] at htc
      simp only [List.mem_map] at htc
      obtain ⟨tc0, _htc0, rfl⟩ := htc
      simp only at hhid
      simp [hhid]
    · rfl
  · intro a userGroups existing student now payload stored h
    simp only [startSession, alreadySubmitted] at h
    split_ifs at h with h1 h2 h3
    · simp at h
    · simp at h
    · simp at h
    · simp only [Prod.mk.injEq, RouteResult.ok.injEq] at h
      rw [← h.1]
      exact ⟨rfl, rfl⟩

/-- Witness for C6 at the concrete secret question and leaking session. -/
theorem C6_hidden_output_views_witness :
    redactedSecretTc.expectedOutput = none ∧
    startSession leakAssessment [3] none 7 600000 =
      (.ok leakStartPayload, some (preSave (freshSubmission 1 7 600000))) ∧
    leakStartPayload.codingQuestions = leakAssessment.codingQuestions :=
  ⟨(C6_hidden_output_views.1 secretQuestion rfl).1 redactedSecretTc (by decide) rfl,
   rfl,
   (C6_hidden_output_views.2 leakAssessment [3] none 7 600000 leakStartPayload
     (some (preSave (freshSubmission 1 7 600000))) rfl).1⟩

/-- C1 counterexample: with the stored submission for (assessment 1,
student 7) already in status submitted, a second finalize call answers 404
"No active assessment session found" instead of returning the stored
result; the store is untouched. -/
theorem C1_idempotent_finalize_counterexample :
    finalizeRoute sampleAssessment [sampleSubmission] 7 20000 =
      (.error 404 "No active assessment session found", [sampleSubmission]) := rfl

/-- C1 amended: re-invoking finalize when no in_progress submission exists
for (assessment, student) — in particular when it is already submitted —
performs no re-scoring and leaves every stored submission unchanged, but
responds 404 "No active assessment session found" rather than returning
the stored result. -/
theorem C1_finalize_already_submitted (a : Assessment) (db : List Submission)
    (student : Nat) (now : Int)
    (h : ∀ s ∈ db, s.assessment = a.aid → s.student = student →
      s.status ≠ SubStatus.inProgress) :
    finalizeRoute a db student now =
      (.error 404 "No active assessment session found", db) := by
  have hfind : db.find? (inProgressQuery a.aid student) = none := by
    rw [List.find?_eq_none]
    intro s hs
    simp only [inProgressQuery, Bool.and_eq_true, beq_iff_eq]
    intro hc
    exact h s hs hc.1.1 hc.1.2 hc.2
  unfold finalizeRoute
  rw [hfind]

/-- Witness for C1 at an empty store. -/
theorem C1_finalize_already_submitted_witness :
    finalizeRoute sampleAssessment [] 7 5 =
      (.error 404 "No active assessment session found", []) :=
  C1_finalize_already_submitted sampleAssessment [] 7 5
    (by intro s hs; exact absurd hs (List.not_mem_nil s))

/-- Membership after replaceFirst: every stored record either was stored
before or is the replacement. -/
theorem mem_replaceFirst {p : Submission → Bool} {new x : Submission} :
    ∀ {db : List Submission}, x ∈ replaceFirst db p new → x ∈ db ∨ x = new := by
  intro db
  induction db with
  | nil => intro h; simp [replaceFirst] at h
  | cons s rest ih =>
    intro h
    by_cases hs : p s = true
    · simp only [replaceFirst, if_pos hs] at h
      rcases List.mem_cons.mp h with h1 | h1
      · exact Or.inr h1
      · exact Or.inl (List.mem_cons_of_mem s h1)
    · simp only [replaceFirst, if_neg hs] at h
      rcases List.mem_cons.mp h with h1 | h1
      · exact Or.inl (h1 ▸ List.mem_cons_self s rest)
      · rcases ih h1 with h2 | h2
        · exact Or.inl (List.mem_cons_of_mem s h2)
        · exact Or.inr h2

/-- The replacement is stored whenever the query matched something. -/
theorem mem_replaceFirst_self {p : Submission → Bool} {new sub : Submission} :
    ∀ {db : List Submission}, db.find? p = some sub → new ∈ replaceFirst db p new := by
  intro db
  induction db with
  | nil => intro h; simp at h
  | cons s rest ih =>
    intro h
    by_cases hs : p s = true
    · simp only [replaceFirst, if_pos hs]
      exact List.mem_cons_self _ _
    · simp only [List.find?_cons, hs] at h
      simp only [replaceFirst, if_neg hs]
      exact List.mem_cons_of_mem _ (ih h)

/-- The pre-save hook does not touch the attempt lists. -/
theorem attemptsFor_preSave (s : Submission) (qid : Nat) :
    attemptsFor (preSave s) qid = attemptsFor s qid := rfl

/-- After replacing the entry the lookup found, the lookup returns the
replacement. -/
theorem find?_replaceCodingEntry (qid : Nat) :
    ∀ (entries : List CodingSubmissionEntry) (cs : CodingSubmissionEntry),
      entries.find? (fun e => e.question == qid) = some cs →
      ∀ new : CodingSubmissionEntry, (new.question == qid) = true →
      (replaceCodingEntry entries qid new).find? (fun e => e.question == qid) = some new := by
  intro entries
  induction entries with
  | nil => intro cs h; simp at h
  | cons e t ih =>
    intro cs h new hnew
    by_cases he : (e.question == qid) = true
    · simp only [replaceCodingEntry, if_pos he]
      simp [List.find?_cons, hnew]
    · simp only [List.find?_cons, he] at h
      simp only [replaceCodingEntry, if_neg he]
      simp only [List.find?_cons, he]
      exact ih cs h new hnew

/-- Appending an entry behind a failed lookup makes it the found one. -/
theorem find?_append_entry (qid : Nat) :
    ∀ (entries : List CodingSubmissionEntry),
      entries.find? (fun e => e.question == qid) = none →
      ∀ new : CodingSubmissionEntry, (new.question == qid) = true →
      (entries ++ [new]).find? (fun e => e.question == qid) = some new := by
  intro entries
  induction entries with
  | nil =>
    intro _ new hnew
    simp [List.find?_cons, hnew]
  | cons e t ih =>
    intro h new hnew
    by_cases he : (e.question == qid) = true
    · simp only [List.find?_cons, he] at h
      simp at h
    · simp only [List.find?_cons, he] at h
      simp only [List.cons_append, List.find?_cons, he]
      exact ih h new hnew

/-- C2 counterexample: on POST /api/code/assessment-submit, a submission
already holding 3 attempts on question 9 receives a 4th attempt — the call
succeeds and the stored attempt list grows to 4 instead of failing with an
attempt-limit error. -/
theorem C2_attempt_ceiling_counterexample :
    routeOk (assessmentSubmitRoute [c2Submission] [secretQuestion] 7 1 9 "print(0)" "python"
      [failedResult] 50 "e4").1 = true ∧
    attemptsList [c2Submission] 9 = [3] ∧
    attemptsList (assessmentSubmitRoute [c2Submission] [secretQuestion] 7 1 9 "print(0)"
      "python" [failedResult] 50 "e4").2 9 = [4] :=
  ⟨rfl, rfl, rfl⟩

/-- C2 amended: POST /api/assessments/:id/submit-coding enforces the
ceiling — a submission at the per-question maxAttempts is rejected with
"Maximum attempts reached for this question" and the store is unchanged,
and if every stored attempt list respects the ceiling it still does after
the call; but POST /api/code/assessment-submit performs no limit check: it
always appends, growing the question's attempt list by one and answering
success, so that path can exceed maxAttempts. -/
theorem C2_attempt_ceiling :
    (∀ (a : Assessment) (db : List Submission) (store : List Question)
      (student qid : Nat) (code lang : String) (now : Int) (execId : String)
      (sub : Submission) (q : Question) (cs : CodingSubmissionEntry) (cfg : ManifestEntry),
      db.find? (inProgressQuery a.aid student) = some sub →
      store.find? (fun qq => qq.qid == qid) = some q →
      q.qtype = QType.coding →
      sub.codingSubmissions.find? (fun e => e.question == qid) = some cs →
      a.codingQuestions.find? (fun mq => mq.question.qid == qid) = some cfg →
      cfg.maxAttempts ≤ cs.attempts.length →
      submitCodingRoute a db store student qid code lang now execId =
        (.error 400 "Maximum attempts reached for this question", db)) ∧
    (∀ (a : Assessment) (db : List Submission) (store : List Question)
      (student qid : Nat) (code lang : String) (now : Int) (execId : String)
      (sub : Submission) (q : Question) (cfg : ManifestEntry),
      db.find? (inProgressQuery a.aid student) = some sub →
      store.find? (fun qq => qq.qid == qid) = some q →
      q.qtype = QType.coding →
      a.codingQuestions.find? (fun mq => mq.question.qid == qid) = some cfg →
      1 ≤ cfg.maxAttempts →
      (∀ s ∈ db, attemptsFor s qid ≤ cfg.maxAttempts) →
      ∀ s' ∈ (submitCodingRoute a db store student qid code lang now execId).2,
        attemptsFor s' qid ≤ cfg.maxAttempts) ∧
    (∀ (db : List Submission) (store : List Question)
      (student assessmentId qid : Nat) (code lang : String) (results : List TestResult)
      (now : Int) (execId : String) (sub : Submission) (q : Question),
      store.find? (fun qq => qq.qid == qid) = some q →
      q.qtype = QType.coding →
      q.testCases.length ≠ 0 →
      db.find? (activeOrSubmittedQuery assessmentId student) = some sub →
      ∃ summary db',
        assessmentSubmitRoute db store student assessmentId qid code lang results now execId =
          (.ok summary, db') ∧
        summary.attemptNumber = attemptsFor sub qid + 1 ∧
        ∃ s' ∈ db', attemptsFor s' qid = attemptsFor sub qid + 1) := by
  refine ⟨?_, ?_, ?_⟩
  · intro a db store student qid code lang now execId sub q cs cfg h1 h2 hq h4 h5 h6
    simp [submitCodingRoute, h1, h2, h4, h5, hq, h6]
  · intro a db store student qid code lang now execId sub q cfg h1 h2 hq h5 hmax hinv s' hs'
    rcases hcase : sub.codingSubmissions.find? (fun e => e.question == qid) with _ | cs
    · simp only [submitCodingRoute, h1, h2, hq, hcase, ne_eq, not_true_eq_false,
        if_false] at hs'
      rcases mem_replaceFirst hs' with hmem | rfl
      · exact hinv s' hmem
      · rw [attemptsFor_preSave]
        simp only [attemptsFor]
        rw [find?_append_entry qid sub.codingSubmissions hcase]
        · simpa using hmax
        · simp
    · have hcsq : (cs.question == qid) = true := by simpa using List.find?_some hcase
      simp only [submitCodingRoute, h1, h2, hq, hcase, h5, ne_eq, not_true_eq_false,
        if_false] at hs'
      by_cases hle : cfg.maxAttempts ≤ cs.attempts.length
      · rw [if_pos hle] at hs'
        exact hinv s' hs'
      · rw [if_neg hle] at hs'
        rcases mem_replaceFirst hs' with hmem | rfl
        · exact hinv s' hmem
        · rw [attemptsFor_preSave]
          simp only [attemptsFor]
          rw [find?_replaceCodingEntry qid sub.codingSubmissions cs hcase]
          · simp only [List.length_append, List.length_cons, List.length_nil]
            omega
          · exact hcsq
  · intro db store student assessmentId qid code lang results now execId sub q h2 hq htc h1
    rcases hcase : sub.codingSubmissions.find? (fun e => e.question == qid) with _ | cs
    · simp only [assessmentSubmitRoute, h2, h1, hcase, hq, ne_eq, not_true_eq_false,
        if_false, if_neg htc]
      refine ⟨_, _, rfl, ?_, ?_⟩
      · simp [attemptsFor, hcase]
      · refine ⟨_, mem_replaceFirst_self h1, ?_⟩
        rw [attemptsFor_preSave]
        simp only [attemptsFor]
        rw [find?_append_entry qid sub.codingSubmissions hcase]
        · simp [attemptsFor, hcase]
        · simp
    · have hcsq : (cs.question == qid) = true := by simpa using List.find?_some hcase
      simp only [assessmentSubmitRoute, h2, h1, hcase, hq, ne_eq, not_true_eq_false,
        if_false, if_neg htc]
      refine ⟨_, _, rfl, ?_, ?_⟩
      · simp [attemptsFor, hcase]
      · refine ⟨_, mem_replaceFirst_self h1, ?_⟩
        rw [attemptsFor_preSave]
        simp only [attemptsFor]
        rw [find?_replaceCodingEntry qid sub.codingSubmissions cs hcase]
        · simp [attemptsFor, hcase]
        · exact hcsq

/-- Witness for C2 applying the enforcement clause: a 4th submit-coding
attempt on question 9 with maxAttempts = 3 is rejected. -/
theorem C2_attempt_ceiling_witness :
    submitCodingRoute leakAssessment [c2Submission] [secretQuestion] 7 9 "print(0)" "python"
      50 "e9" =
      (.error 400 "Maximum attempts reached for this question", [c2Submission]) :=
  C2_attempt_ceiling.1 leakAssessment [c2Submission] [secretQuestion] 7 9 "print(0)" "python"
    50 "e9" c2Submission secretQuestion
    { question := 9, attempts := [c2Attempt, c2Attempt, c2Attempt],
      bestScore := 0, isCompleted := true }
    { question := secretQuestion, points := 20, maxAttempts := 3 }
    rfl rfl rfl rfl rfl (by decide)

/-- The nullable key comparison is never true on equal keys. -/
theorem keyLtB_self (x : Option Int) : keyLtB x x = false := by
  cases x <;> simp [keyLtB]

/-- Unfolding of the rank comparator into its lexicographic reading. -/
theorem rankLe_iff (a b : Submission) :
    RankLe a b ↔ (b.totalScore < a.totalScore ∨
      (a.totalScore = b.totalScore ∧ (keyLt a.timeTaken b.timeTaken ∨
        (a.timeTaken = b.timeTaken ∧ (keyLt a.submittedAt b.submittedAt ∨
          a.submittedAt = b.submittedAt))))) := by
  unfold RankLe rankLeB keyLt
  split_ifs with h1 h2 h3 h4
  · simp [h1]
  · simp [h1, h2, h3]
  · simp [h1, h2, h3, h4, beq_iff_eq, keyLtB_self]
  · simp [h1, h2, h3, h4]
  · simp [h1, h2]

/-- The nullable sort keys are trichotomous. -/
theorem keyLt_trichotomy (x y : Option Int) : keyLt x y ∨ x = y ∨ keyLt y x := by
  unfold keyLt keyLtB
  cases x <;> cases y <;> simp
  omega

/-- The nullable key order is irreflexive. -/
theorem keyLt_irrefl (x : Option Int) : ¬ keyLt x x := by
  unfold keyLt keyLtB
  cases x <;> simp

/-- The nullable key order is asymmetric. -/
theorem keyLt_asymm {x y : Option Int} : keyLt x y → ¬ keyLt y x := by
  unfold keyLt keyLtB
  cases x <;> cases y <;> simp
  omega

/-- The nullable key order is transitive. -/
theorem keyLt_trans {x y z : Option Int} : keyLt x y → keyLt y z → keyLt x z := by
  unfold keyLt keyLtB
  cases x <;> cases y <;> cases z <;> simp
  omega

/-- The rank comparator is reflexive. -/
theorem rankLe_refl (a : Submission) : RankLe a a := by
  rw [rankLe_iff]
  exact Or.inr ⟨rfl, Or.inr ⟨rfl, Or.inr rfl⟩⟩

/-- The rank comparator is total. -/
theorem rankLe_total : IsTotal Submission RankLe := by
  constructor
  intro a b
  rw [rankLe_iff, rankLe_iff]
  rcases lt_trichotomy a.totalScore b.totalScore with h | h | h
  · exact Or.inr (Or.inl h)
  · rcases keyLt_trichotomy a.timeTaken b.timeTaken with ht | ht | ht
    · exact Or.inl (Or.inr ⟨h, Or.inl ht⟩)
    · rcases keyLt_trichotomy a.submittedAt b.submittedAt with hs | hs | hs
      · exact Or.inl (Or.inr ⟨h, Or.inr ⟨ht, Or.inl hs⟩⟩)
      · exact Or.inl (Or.inr ⟨h, Or.inr ⟨ht, Or.inr hs⟩⟩)
      · exact Or.inr (Or.inr ⟨h.symm, Or.inr ⟨ht.symm, Or.inl hs⟩⟩)
    · exact Or.inr (Or.inr ⟨h.symm, Or.inl ht⟩)
  · exact Or.inl (Or.inl h)

/-- The rank comparator is transitive. -/
theorem rankLe_trans : IsTrans Submission RankLe := by
  constructor
  intro a b c hab hbc
  rw [rankLe_iff] at hab hbc ⊢
  rcases hab with hab | ⟨habe, hab⟩
  · rcases hbc with hbc | ⟨hbce, _⟩
    · exact Or.inl (lt_trans hbc hab)
    · exact Or.inl (hbce ▸ hab)
  · rcases hbc with hbc | ⟨hbce, hbc⟩
    · exact Or.inl (habe ▸ hbc)
    · refine Or.inr ⟨habe.trans hbce, ?_⟩
      rcases hab with hab | ⟨habt, hab⟩
      · rcases hbc with hbc | ⟨hbct, _⟩
        · exact Or.inl (keyLt_trans hab hbc)
        · exact Or.inl (hbct ▸ hab)
      · rcases hbc with hbc | ⟨hbct, hbc⟩
        · exact Or.inl (habt ▸ hbc)
        · refine Or.inr ⟨habt.trans hbct, ?_⟩
          rcases hab with hab | hab
          · rcases hbc with hbc | hbc
            · exact Or.inl (keyLt_trans hab hbc)
            · exact Or.inl (hbc ▸ hab)
          · rcases hbc with hbc | hbc
            · exact Or.inl (hab ▸ hbc)
            · exact Or.inr (hab.trans hbc)

/-- The comparator never reads the rank field. -/
theorem rankLeB_rank_update (a b : Submission) (ra rb : Option Nat) :
    rankLeB { a with rank := ra } { b with rank := rb } = rankLeB a b := rfl

/-- The hook commutes with setting the rank field. -/
theorem preSave_rank_update (s : Submission) (r : Option Nat) :
    preSave { s with rank := r } = { preSave s with rank := r } := rfl

/-- The pre-save hook is idempotent: records written through save are its
fixed points. -/
theorem preSave_idem (s : Submission) : preSave (preSave s) = preSave s := by
  unfold preSave
  dsimp only
  cases hsub : s.submittedAt <;> split_ifs <;> rfl

/-- rankFrom keeps the list length. -/
theorem rankFrom_length : ∀ (l : List Submission) (i : Nat),
    (rankFrom i l).length = l.length := by
  intro l
  induction l with
  | nil => intro i; rfl
  | cons s rest ih =>
    intro i
    simp [rankFrom, ih]

/-- The assigned ranks are exactly i, i+1, ... in order. -/
theorem rankFrom_map_rank : ∀ (l : List Submission) (i : Nat),
    (rankFrom i l).map Submission.rank = (List.range' i l.length).map some := by
  intro l
  induction l with
  | nil => intro i; rfl
  | cons s rest ih =>
    intro i
    simp only [rankFrom, List.map_cons, List.length_cons, List.range'_succ, ih]
    rfl

/-- Every record produced by rankFrom is a positioned, rank-stamped, saved
copy of a sorted-list element. -/
theorem mem_rankFrom {p : Submission} : ∀ (l : List Submission) (i : Nat),
    p ∈ rankFrom i l →
    ∃ j, ∃ hj : j < l.length, p = preSave { l.get ⟨j, hj⟩ with rank := some (i + j) } := by
  intro l
  induction l with
  | nil => intro i h; simp [rankFrom] at h
  | cons s rest ih =>
    intro i h
    rcases List.mem_cons.mp h with h1 | h1
    · exact ⟨0, by simp, by simpa using h1⟩
    · obtain ⟨j, hj, hjeq⟩ := ih (i + 1) h1
      refine ⟨j + 1, by simpa using hj, ?_⟩
      rw [hjeq]
      have : i + 1 + j = i + (j + 1) := by omega
      rw [this]
      rfl

/-- Two saved records of one updateRanks run whose keys forbid y before x
get strictly increasing ranks. -/
theorem updateRanks_pair (subs : List Submission) (hst : ∀ s ∈ subs, preSave s = s)
    (x y : Submission) (hx : x ∈ updateRanks subs) (hy : y ∈ updateRanks subs)
    (hnot : ¬ RankLe y x) :
    ∃ rx ry, x.rank = some rx ∧ y.rank = some ry ∧ rx < ry := by
  have hstable : ∀ s ∈ List.insertionSort RankLe (subs.filter rankEligible), preSave s = s := by
    intro s hs
    have hmem : s ∈ subs.filter rankEligible :=
      (List.perm_insertionSort RankLe (subs.filter rankEligible)).mem_iff.mp hs
    exact hst s (List.mem_of_mem_filter hmem)
  haveI : IsTotal Submission RankLe := rankLe_total
  haveI : IsTrans Submission RankLe := rankLe_trans
  have hsorted : List.Sorted RankLe (List.insertionSort RankLe (subs.filter rankEligible)) :=
    List.sorted_insertionSort RankLe (subs.filter rankEligible)
  obtain ⟨j, hj, hxj⟩ := mem_rankFrom _ 1 hx
  obtain ⟨k, hk, hyk⟩ := mem_rankFrom _ 1 hy
  set l := List.insertionSort RankLe (subs.filter rankEligible) with hl
  have hxj2 : x = { l.get ⟨j, hj⟩ with rank := some (1 + j) } := by
    rw [hxj, preSave_rank_update, hstable _ (l.get_mem j hj)]
  have hyk2 : y = { l.get ⟨k, hk⟩ with rank := some (1 + k) } := by
    rw [hyk, preSave_rank_update, hstable _ (l.get_mem k hk)]
  have hjk : j < k := by
    rcases lt_trichotomy j k with h | h | h
    · exact h
    · exfalso
      apply hnot
      subst h
      rw [hxj2, hyk2]
      unfold RankLe
      rw [rankLeB_rank_update]
      exact rankLe_refl _
    · exfalso
      apply hnot
      have := (List.pairwise_iff_get.mp hsorted) ⟨k, hk⟩ ⟨j, hj⟩ h
      rw [hxj2, hyk2]
      unfold RankLe
      rw [rankLeB_rank_update]
      exact this
  refine ⟨1 + j, 1 + k, ?_, ?_, by omega⟩
  · rw [hxj2]
  · rw [hyk2]

/-- C5: updateRanks ranks exactly the submitted/evaluated submissions,
assigning 1-based consecutive ranks in sorted order; among saved records,
a strictly higher totalScore ranks strictly better, a tie on totalScore is
broken by smaller timeTaken, and a tie on both by earlier submittedAt —
provided the stored records are fixed points of the save hook, as every
record written through save is. -/
theorem C5_rank_assignment (subs : List Submission)
    (hst : ∀ s ∈ subs, preSave s = s) :
    (∀ s ∈ updateRanks subs,
      s.status = SubStatus.submitted ∨ s.status = SubStatus.evaluated) ∧
    ((updateRanks subs).map Submission.rank =
      (List.range' 1 (updateRanks subs).length).map some) ∧
    (∀ x y, x ∈ updateRanks subs → y ∈ updateRanks subs →
      y.totalScore < x.totalScore →
      ∃ rx ry, x.rank = some rx ∧ y.rank = some ry ∧ rx < ry) ∧
    (∀ x y, x ∈ updateRanks subs → y ∈ updateRanks subs →
      x.totalScore = y.totalScore → keyLt x.timeTaken y.timeTaken →
      ∃ rx ry, x.rank = some rx ∧ y.rank = some ry ∧ rx < ry) ∧
    (∀ x y, x ∈ updateRanks subs → y ∈ updateRanks subs →
      x.totalScore = y.totalScore → x.timeTaken = y.timeTaken →
      keyLt x.submittedAt y.submittedAt →
      ∃ rx ry, x.rank = some rx ∧ y.rank = some ry ∧ rx < ry) := by
  refine ⟨?_, ?_, ?_, ?_, ?_⟩
  · intro s hs
    obtain ⟨j, hj, hjeq⟩ := mem_rankFrom _ 1 hs
    set l := List.insertionSort RankLe (subs.filter rankEligible) with hl
    have hmem : l.get ⟨j, hj⟩ ∈ subs.filter rankEligible :=
      (List.perm_insertionSort RankLe (subs.filter rankEligible)).mem_iff.mp
        (l.get_mem j hj)
    have helig : rankEligible (l.get ⟨j, hj⟩) = true := List.of_mem_filter hmem
    have hstatus : s.status = (l.get ⟨j, hj⟩).status := by
      rw [hjeq, preSave_rank_update,
        hst _ (List.mem_of_mem_filter hmem)]
    rw [hstatus]
    unfold rankEligible at helig
    simp only [Bool.or_eq_true, beq_iff_eq] at helig
    exact helig
  · unfold updateRanks
    rw [rankFrom_map_rank, rankFrom_length]
  · intro x y hx hy h
    apply updateRanks_pair subs hst x y hx hy
    rw [rankLe_iff]
    rintro (hc | ⟨hce, _⟩)
    · exact absurd h (lt_asymm hc)
    · exact absurd hce (ne_of_lt h)
  · intro x y hx hy he ht
    apply updateRanks_pair subs hst x y hx hy
    rw [rankLe_iff]
    rintro (hc | ⟨_, (hc | ⟨hct, _⟩)⟩)
    · exact absurd he (ne_of_lt hc)
    · exact keyLt_asymm ht hc
    · exact keyLt_irrefl _ (hct ▸ ht)
  · intro x y hx hy he hte hs
    apply updateRanks_pair subs hst x y hx hy
    rw [rankLe_iff]
    rintro (hc | ⟨_, (hc | ⟨_, (hc | hc)⟩)⟩)
    · exact absurd he (ne_of_lt hc)
    · exact keyLt_irrefl _ (hte ▸ hc)
    · exact keyLt_asymm hs hc
    · exact keyLt_irrefl _ (hc ▸ hs)

/-- Witness for C5: the two-record store receives ranks 1 and 2. -/
theorem C5_rank_assignment_witness :
    (updateRanks [rankSampleA, rankSampleB]).map Submission.rank =
      (List.range' 1 (updateRanks [rankSampleA, rankSampleB]).length).map some :=
  (C5_rank_assignment [rankSampleA, rankSampleB] (by
    intro s hs
    rcases List.mem_cons.mp hs with rfl | hs2
    · exact preSave_idem rawRankA
    · rcases List.mem_cons.mp hs2 with rfl | hs3
      · exact preSave_idem rawRankB
      · exact absurd hs3 (List.not_mem_nil s))).2.1

/-- The loop stops as soon as its guard fails, issuing no further polls. -/
theorem pollLoop_stop (polls : Nat → PollOutcome) (maxAttempts attempts : Nat)
    (result : Option JudgeResult)
    (h : ¬ (attempts < maxAttempts ∧ pendingResult result = true)) :
    pollLoop polls maxAttempts attempts result = (attempts, result) := by
  rw [pollLoop]
  rw [dif_neg h]

/-- The loop counter never passes the attempt ceiling. -/
theorem pollLoop_count_le (polls : Nat → PollOutcome) (maxAttempts : Nat) :
    ∀ (attempts : Nat) (result : Option JudgeResult), attempts ≤ maxAttempts →
      (pollLoop polls maxAttempts attempts result).1 ≤ maxAttempts := by
  suffices H : ∀ (n attempts : Nat) (result : Option JudgeResult),
      maxAttempts - attempts ≤ n → attempts ≤ maxAttempts →
      (pollLoop polls maxAttempts attempts result).1 ≤ maxAttempts by
    intro attempts result h
    exact H (maxAttempts - attempts) attempts result le_rfl h
  intro n
  induction n with
  | zero =>
    intro attempts result hn h
    rw [pollLoop_stop]
    · exact h
    · rintro ⟨hlt, _⟩
      omega
  | succ n ih =>
    intro attempts result hn h
    by_cases hc : attempts < maxAttempts ∧ pendingResult result = true
    · rw [pollLoop]
      rw [dif_pos hc]
      exact ih (attempts + 1) _ (by omega) (by omega)
    · rw [pollLoop_stop polls maxAttempts attempts result hc]
      exact h

/-- When every poll fails on the network, the loop runs to the ceiling and
returns the injected terminal timeout error. -/
theorem pollLoop_all_errors (polls : Nat → PollOutcome)
    (hpolls : ∀ k, polls k = PollOutcome.networkError) (maxAttempts : Nat) :
    ∀ (attempts : Nat) (result : Option JudgeResult),
      attempts < maxAttempts → pendingResult result = true →
      pollLoop polls maxAttempts attempts result = (maxAttempts, some pollTimeoutResult) := by
  suffices H : ∀ (n attempts : Nat) (result : Option JudgeResult),
      maxAttempts - attempts ≤ n → attempts < maxAttempts → pendingResult result = true →
      pollLoop polls maxAttempts attempts result = (maxAttempts, some pollTimeoutResult) by
    intro attempts result h hp
    exact H (maxAttempts - attempts) attempts result le_rfl h hp
  intro n
  induction n with
  | zero =>
    intro attempts result hn h hp
    omega
  | succ n ih =>
    intro attempts result hn h hp
    rw [pollLoop]
    rw [dif_pos ⟨h, hp⟩]
    dsimp only
    rw [hpolls (attempts + 1)]
    by_cases hend : attempts + 1 = maxAttempts
    · rw [if_pos hend]
      rw [pollLoop_stop]
      · rw [hend]
      · rintro ⟨hlt, _⟩
        omega
    · rw [if_neg hend]
      exact ih (attempts + 1) result (by omega) (by omega) hp

/-- When every poll reports queued, the loop exits at the ceiling with the
queued result still pending — not a terminal timeout. -/
theorem pollLoop_all_queued (polls : Nat → PollOutcome)
    (hpolls : ∀ k, polls k = PollOutcome.ok queuedResult) (maxAttempts : Nat) :
    ∀ (attempts : Nat) (result : Option JudgeResult),
      attempts < maxAttempts → pendingResult result = true →
      pollLoop polls maxAttempts attempts result = (maxAttempts, some queuedResult) := by
  suffices H : ∀ (n attempts : Nat) (result : Option JudgeResult),
      maxAttempts - attempts ≤ n → attempts < maxAttempts → pendingResult result = true →
      pollLoop polls maxAttempts attempts result = (maxAttempts, some queuedResult) by
    intro attempts result h hp
    exact H (maxAttempts - attempts) attempts result le_rfl h hp
  intro n
  induction n with
  | zero =>
    intro attempts result hn h hp
    omega
  | succ n ih =>
    intro attempts result hn h hp
    rw [pollLoop]
    rw [dif_pos ⟨h, hp⟩]
    dsimp only
    rw [hpolls (attempts + 1)]
    by_cases hend : attempts + 1 = maxAttempts
    · rw [pollLoop_stop]
      · rw [hend]
      · rintro ⟨hlt, _⟩
        omega
    · exact ih (attempts + 1) (some queuedResult) (by omega) (by omega) rfl

/-- C9 counterexample: a judge answering queued on all 30 polls makes the
loop exhaust the ceiling and hand back the still-pending queued result,
not a terminal timeout or error result. -/
theorem C9_poll_ceiling_counterexample :
    pollLoop constQueuedPolls 30 0 none = (30, some queuedResult) ∧
    pendingResult (some queuedResult) = true ∧
    queuedResult.status.id ≠ "error" := by
  refine ⟨pollLoop_all_queued constQueuedPolls (fun k => rfl) 30 0 none (by omega) rfl,
    rfl, by decide⟩

/-- C9 amended: the loop issues at most 30 polls (the counter counts one
poll per iteration and never passes the ceiling), it stops issuing polls as
soon as a non-pending (terminal) result is observed, and when every poll
fails on the network it terminates with the injected terminal error result
"Timeout while polling for results"; a judge that keeps reporting
queued/processing instead makes it exit at the ceiling with the last
pending status. -/
theorem C9_poll_ceiling :
    (∀ (polls : Nat → PollOutcome) (attempts : Nat) (result : Option JudgeResult),
      attempts ≤ 30 → (pollLoop polls 30 attempts result).1 ≤ 30) ∧
    (∀ (polls : Nat → PollOutcome) (maxAttempts attempts : Nat)
      (result : Option JudgeResult), pendingResult result = false →
      pollLoop polls maxAttempts attempts result = (attempts, result)) ∧
    (∀ (polls : Nat → PollOutcome) (attempts : Nat) (result : Option JudgeResult),
      (∀ k, polls k = PollOutcome.networkError) → attempts < 30 →
      pendingResult result = true →
      pollLoop polls 30 attempts result = (30, some pollTimeoutResult)) ∧
    pollTimeoutResult.status.id = "error" := by
  refine ⟨?_, ?_, ?_, rfl⟩
  · intro polls attempts result h
    exact pollLoop_count_le polls 30 attempts result h
  · intro polls maxAttempts attempts result h
    apply pollLoop_stop
    rintro ⟨_, hp⟩
    rw [h] at hp
    exact Bool.false_ne_true hp
  · intro polls attempts result hpolls h hp
    exact pollLoop_all_errors polls hpolls 30 attempts result h hp

/-- Witness for C9 at concrete judges: the error-only judge reaches the
ceiling with the terminal timeout result; a terminal result stops the loop
with no further polls. -/
theorem C9_poll_ceiling_witness :
    (pollLoop constErrorPolls 30 0 none).1 ≤ 30 ∧
    pollLoop constQueuedPolls 30 7 (some pollTimeoutResult) =
      (7, some pollTimeoutResult) ∧
    pollLoop constErrorPolls 30 0 none = (30, some pollTimeoutResult) :=
  ⟨C9_poll_ceiling.1 constErrorPolls 0 none (by omega),
   C9_poll_ceiling.2.1 constQueuedPolls 30 7 (some pollTimeoutResult) rfl,
   C9_poll_ceiling.2.2.1 constErrorPolls 0 none (fun k => rfl) (by omega) rfl⟩

end Compyle
